import Mathlib

/-!
Shallow embedding of the generic NMOS API conformance-test engine
(`GenericTest.py`): JSON values as returned by `response.json()`, the
subresource cache (`saved_entities`), CORS validation (`validate_CORS`),
response validation (`check_response`), base-path checks
(`check_base_path`), endpoint URL resolution and per-endpoint checking
(`check_api_resource`), identifier harvesting (`save_subresources`), and
the bootstrap-plus-endpoint probe sequence (`basics`).

Python strings are modelled as Lean `String`, manipulated through their
underlying character lists so that concrete runs reduce inside the
kernel.  JSON numbers are modelled as integers; no behaviour below
depends on numeric values.  The external `jsonschema` validator is
modelled as an opaque decidable predicate `Json → Bool`, and the
external `Specification` catalog is passed in as data (a resource list
and a schema-lookup function), matching the spec's component boundary.
-/

/-- JSON values as produced by Python's `json` module from a response
body.  Object fields are an ordered association list (Python dicts
preserve insertion order and have unique keys). -/
inductive Json where
  | null
  | bool (b : Bool)
  | num (n : Int)
  | str (s : String)
  | arr (elements : List Json)
  | obj (fields : List (String × Json))
  deriving Repr

/-- The opening-brace character of a `\x7bname\x7d` path-template
placeholder. -/
def lbrace : Char := Char.ofNat 123

/-- The closing-brace character of a placeholder. -/
def rbrace : Char := Char.ofNat 125

/-- Python `s.rstrip("/")`: remove every trailing `/`. -/
def rstripSlash (s : String) : String :=
  ⟨(s.data.reverse.dropWhile (fun c => c == '/')).reverse⟩

/-- Python `s.endswith("/")`. -/
def endsWithSlash (s : String) : Bool :=
  match s.data.getLast? with
  | some c => c == '/'
  | none => false

/-- Python `s.split("\x7b")[0]`: the prefix of `s` before its first
opening brace. -/
def beforeBrace (s : String) : String :=
  ⟨s.data.takeWhile (fun c => c != lbrace)⟩

/-- ASCII upper-casing of one character (Python `str.upper`; the HTTP
method names this is applied to are ASCII). -/
def charUpper (c : Char) : Char :=
  if 97 ≤ c.toNat ∧ c.toNat ≤ 122 then Char.ofNat (c.toNat - 32) else c

/-- Python `s.upper()` on ASCII strings. -/
def strUpper (s : String) : String := ⟨s.data.map charUpper⟩

/-- ASCII lower-casing of one character, used for the case-insensitive
header lookup performed by the `requests` library. -/
def charLower (c : Char) : Char :=
  if 65 ≤ c.toNat ∧ c.toNat ≤ 90 then Char.ofNat (c.toNat + 32) else c

/-- ASCII `s.lower()`. -/
def strLower (s : String) : String := ⟨s.data.map charLower⟩

/-- Substitute every occurrence of `pat` in the character list by `val`
(fuel-driven so that concrete runs reduce; fuel one per character is
enough because each step consumes at least one character). -/
def substListAux (pat val : List Char) : Nat → List Char → List Char
  | 0, l => l
  | _ + 1, [] => []
  | fuel + 1, c :: rest =>
    if pat.isPrefixOf (c :: rest) && !pat.isEmpty then
      val ++ substListAux pat val fuel (List.drop (pat.length - 1) rest)
    else
      c :: substListAux pat val fuel rest

/-- Replace every occurrence of `pat` by `val`. -/
def substList (pat val l : List Char) : List Char :=
  substListAux pat val l.length l

/-- Python `template.format(**\x7bname: value\x7d)` as used on the path
templates: each `\x7bname\x7d` placeholder is replaced by `value`.  The
engine only ever formats templates that carry exactly one declared
parameter. -/
def formatTemplate (template name value : String) : String :=
  ⟨substList (String.singleton lbrace ++ name ++ String.singleton rbrace).data
    value.data template.data⟩

/-- Python `str()` applied to a harvested JSON value when it is
substituted into a template.  On strings (the only shape any claim
instantiates) this is the identity; container renderings are
abbreviated. -/
def pyStr : Json → String
  | Json.str s => s
  | Json.num n => toString n
  | Json.bool true => "True"
  | Json.bool false => "False"
  | Json.null => "None"
  | Json.arr _ => "[...]"
  | Json.obj _ => "\x7b...\x7d"

/-- The subresource cache `self.saved_entities`: a Python dict from a
parent path to the ordered list of harvested identifiers, modelled as
an insertion-ordered association list with unique keys. -/
abbrev Cache := List (String × List Json)

/-- Dict lookup: `cache[path]` / `path in cache`. -/
def lookupEnt : Cache → String → Option (List Json)
  | [], _ => none
  | (k, v) :: rest, key => if k == key then some v else lookupEnt rest key

/-- Dict update `cache[path] += subs` on a present key. -/
def updateAppend : Cache → String → List Json → Cache
  | [], _, _ => []
  | (k, v) :: rest, key, subs =>
    if k == key then (k, v ++ subs) :: rest else (k, v) :: updateAppend rest key subs

/-- First field of a JSON object with the given key (Python dict access
`entry["id"]`; parsed dicts have unique keys). -/
def jsonField : List (String × Json) → String → Option Json
  | [], _ => none
  | (k, v) :: rest, key => if k == key then some v else jsonField rest key

/-- Identifier extraction from one element of a list-shaped response
body (`save_subresources` loop body): a dict contributes its `id` field
when present; a string contributes its slash-stripped form when it ends
in a slash. -/
def extractId : Json → List Json
  | Json.obj fields =>
    match jsonField fields "id" with
    | some v => [v]
    | none => []
  | Json.str s => if endsWithSlash s then [Json.str (rstripSlash s)] else []
  | _ => []

/-- All identifiers extracted from the elements of a list body, in
encounter order. -/
def harvestList : List Json → List Json
  | [] => []
  | e :: rest => extractId e ++ harvestList rest

/-- The `subresources` list built by `save_subresources` from a parsed
body (`none` models a `JSONDecodeError`, swallowed by the source). -/
def subresourcesOf : Option Json → List Json
  | some (Json.arr elements) => harvestList elements
  | _ => []

/-- Embeds `save_subresources(path, response)`: append the extracted
identifiers to the cache entry for `path`, creating it only when at
least one identifier was extracted. -/
def save_subresources (cache : Cache) (path : String) (body : Option Json) : Cache :=
  let subresources := subresourcesOf body
  if 0 < subresources.length then
    match lookupEnt cache path with
    | none => cache ++ [(path, subresources)]
    | some _ => updateAppend cache path subresources
  else
    cache

/-- An HTTP response as the engine observes it: status code, headers,
and the result of `response.json()` (`none` when the body is not valid
JSON). -/
structure Response where
  status_code : Nat
  headers : List (String × String)
  body : Option Json

/-- Case-insensitive header lookup (the `requests` library exposes
headers as a case-insensitive dict). -/
def headerVal : List (String × String) → String → Option String
  | [], _ => none
  | (k, v) :: rest, key =>
    if strLower k == strLower key then some v else headerVal rest key

/-- Python `name in response.headers`. -/
def hasHeader (r : Response) (key : String) : Bool :=
  (headerVal r.headers key).isSome

/-- Python `response.headers[name]` (total rendering; only evaluated
after a presence check in the source). -/
def getHeader (r : Response) (key : String) : String :=
  (headerVal r.headers key).getD ""

/-- Boolean prefix test on character lists, spelled out so concrete runs
reduce. -/
def prefixChars : List Char → List Char → Bool
  | [], _ => true
  | _ :: _, [] => false
  | a :: as, b :: bs => a == b && prefixChars as bs

/-- Python substring test `needle in hay` on strings. -/
def infixChars (needle : List Char) : List Char → Bool
  | [] => prefixChars needle []
  | c :: rest => prefixChars needle (c :: rest) || infixChars needle rest

/-- Python `needle in hay` for strings (contiguous substring). -/
def substrIn (needle hay : String) : Bool :=
  infixChars needle.data hay.data

/-- Embeds `validate_CORS(method, response)`: the allow-origin header is
required for every method; for the preflight method `OPTIONS` the
allow-headers and allow-methods headers are additionally required and
the allow-methods value must contain the method name as a substring. -/
def validate_CORS (method : String) (response : Response) : Bool :=
  if !(hasHeader response "Access-Control-Allow-Origin") then
    false
  else if method == "OPTIONS" then
    if !(hasHeader response "Access-Control-Allow-Headers") then
      false
    else if !(hasHeader response "Access-Control-Allow-Methods") then
      false
    else if !(substrIn method (getHeader response "Access-Control-Allow-Methods")) then
      false
    else
      true
  else
    true

/-- Deterministic rendering of the header dict interpolated into
failure messages (`"Incorrect CORS headers: \x7b\x7d".format(response.headers)`);
the Python repr of the dict is abbreviated to a key-value listing, a
formatting detail no claim inspects. -/
def headersRepr : List (String × String) → String
  | [] => ""
  | (k, v) :: rest => k ++ ": " ++ v ++ "; " ++ headersRepr rest

/-- Embeds `check_response(schema, method, response)`: CORS headers first, then
JSON parseability of the body, then schema conformance; the schema
check is the external `jsonschema` validator, modelled as a decidable
predicate. -/
def check_response (schema : Json → Bool) (method : String) (response : Response) :
    Bool × String :=
  if !(validate_CORS method response) then
    (false, "Incorrect CORS headers: " ++ headersRepr response.headers)
  else
    match response.body with
    | none => (false, "Invalid JSON received")
    | some j =>
      if schema j then (true, "") else (false, "Response schema validation error")

/-- The five terminal statuses of a check. -/
inductive Status where
  | pass
  | fail
  | na
  | manual
  | warning
  deriving Repr, DecidableEq

/-- Modelled from the spec: the `TestResult` module (the `Test` class
whose `PASS`/`FAIL`/`NA`/`MANUAL`/`WARNING` constructors the engine
calls) is not among the sources; §4.4 describes a terminal outcome as a
status bound to the check's name with an optional message. -/
structure Outcome where
  name : String
  status : Status
  message : Option String
  deriving Repr, DecidableEq

/-- Outcome of `Test(name).PASS()`. -/
def passResult (name : String) : Outcome := ⟨name, Status.pass, none⟩

/-- Outcome of `Test(name).FAIL(msg)`. -/
def failResult (name msg : String) : Outcome := ⟨name, Status.fail, some msg⟩

/-- Outcome of `Test(name).NA(msg)`. -/
def naResult (name msg : String) : Outcome := ⟨name, Status.na, some msg⟩

/-- Outcome of `Test(name).MANUAL(msg)`. -/
def manualResult (name msg : String) : Outcome := ⟨name, Status.manual, some msg⟩

/-- The transport contract (`do_request`): one attempt per call,
returning a response or a categorized failure description. -/
abbrev Transport := String → String → Except String Response

/-- The single quote character used in the bootstrap failure message. -/
def squote : String := String.singleton (Char.ofNat 39)

/-- Python `expectation in req.json()` when the parsed body is a list:
the string `expectation` equals only string elements. -/
def containsStr : List Json → String → Bool
  | [], _ => false
  | Json.str s :: rest, e => if s == e then true else containsStr rest e
  | _ :: rest, e => containsStr rest e

/-- Embeds `check_base_path(base_url, path, expectation)`: GET the path and
require a 200 with valid CORS headers and a JSON array containing the
expected string. -/
def check_base_path (transport : Transport) (base_url path expectation : String) :
    Outcome :=
  let testName := "GET " ++ path
  match transport "GET" (base_url ++ path) with
  | Except.error err => failResult testName ("Unable to connect to API: " ++ err)
  | Except.ok req =>
    if req.status_code != 200 then
      failResult testName ("Incorrect response code: " ++ toString req.status_code)
    else if !(validate_CORS "GET" req) then
      failResult testName ("Incorrect CORS headers: " ++ headersRepr req.headers)
    else
      match req.body with
      | none => failResult testName "Non-JSON response returned"
      | some (Json.arr elements) =>
        if containsStr elements expectation then
          passResult testName
        else
          failResult testName
            ("Response is not an array containing " ++ squote ++ expectation ++ squote)
      | some _ =>
        failResult testName
          ("Response is not an array containing " ++ squote ++ expectation ++ squote)

/-- One readable endpoint from the catalog's `get_reads()`:
`(pathTemplate, \x7bmethod, params, responses\x7d)`, with `params` the
declared path-parameter names and `responses` the status codes carrying
a defined response. -/
structure Resource where
  path : String
  method : String
  params : List String
  responses : List Nat

/-- One named API under test: its name, the base URL used by the
bootstrap checks, the versioned URL used by endpoint checks, the
catalog's readable endpoints, and the catalog's schema lookup
`get_schema(method, path, status)` (external, passed in as data). -/
structure ApiInstance where
  name : String
  base_url : String
  url : String
  resources : List Resource
  schemas : String → String → Nat → Option (Json → Bool)

/-- The test name `"\x7b\x7d /x-nmos/\x7b\x7d/\x7b\x7d\x7b\x7d".format(method.upper(), api, test_version, suffix)`. -/
def testNameFor (method apiName testVersion suffix : String) : String :=
  strUpper method ++ " /x-nmos/" ++ apiName ++ "/" ++ testVersion ++ suffix

/-- The URL-resolution phase of `check_api_resource` (lines 214-243):
either a concrete request to issue, an untestable parameterised URL
(no cached entities), or a silent skip (more than one parameter). -/
inductive Resolution where
  | request (testName : String) (url : String)
  | noEntities (testName : String)
  | skip
  deriving Repr

/-- Resolve one endpooint descriptor against the cache.  With exactly
one declared parameter the parent path is the template cut at its first
brace and slash-stripped; a present cache entry contributes its first
identifier (`saved_entities[path][0]`; present entries are never empty,
see the cache invariant below, so the `headD` rendering of the indexing
is total). -/
def resolveResource (apiName apiUrl testVersion : String) (cache : Cache)
    (r : Resource) : Resolution :=
  match r.params with
  | [param] =>
    let path := rstripSlash (beforeBrace r.path)
    match lookupEnt cache path with
    | some entities =>
      let entity := entities.headD Json.null
      let url_param := formatTemplate r.path param (pyStr entity)
      Resolution.request (testNameFor r.method apiName testVersion url_param)
        (rstripSlash apiUrl ++ url_param)
    | none =>
      Resolution.noEntities (testNameFor r.method apiName testVersion (rstripSlash r.path))
  | [] =>
    Resolution.request (testNameFor r.method apiName testVersion (rstripSlash r.path))
      (rstripSlash apiUrl ++ r.path)
  | _ => Resolution.skip

/-- Embeds `check_api_resource(resource, response_code, api)`: resolve the URL,
issue the request, compare the status, harvest subresources, look up
the schema and validate.  Returns the optional outcome (`None` for the
multi-parameter case) and the updated cache. -/
def check_api_resource (transport : Transport) (api : ApiInstance)
    (testVersion : String) (cache : Cache) (r : Resource) (response_code : Nat) :
    Option Outcome × Cache :=
  match resolveResource api.name api.url testVersion cache r with
  | Resolution.skip => (none, cache)
  | Resolution.noEntities testName =>
    (some (naResult testName "No resources found to perform this test"), cache)
  | Resolution.request testName url =>
    match transport r.method url with
    | Except.error err => (some (failResult testName err), cache)
    | Except.ok response =>
      if response.status_code != response_code then
        (some (failResult testName
          ("Incorrect response code: " ++ toString response.status_code)), cache)
      else
        let cache2 := save_subresources cache r.path response.body
        match api.schemas r.method r.path response.status_code with
        | none => (some (manualResult testName "Test suite unable to locate schema"), cache2)
        | some schema =>
          match check_response schema r.method response with
          | (true, _) => (some (passResult testName), cache2)
          | (false, message) => (some (failResult testName message), cache2)

/-- The inner loop of `basics` over one resource's response codes: only
the 200 response of a non-omitted path is checked, and a `None` result
appends no outcome. -/
def checkCodes (transport : Transport) (api : ApiInstance) (testVersion : String)
    (omitPaths : List String) (r : Resource) : List Nat → Cache → List Outcome × Cache
  | [], cache => ([], cache)
  | code :: rest, cache =>
    if code == 200 && !(omitPaths.contains r.path) then
      match check_api_resource transport api testVersion cache r code with
      | (some result, cache1) =>
        let (outs, cache2) := checkCodes transport api testVersion omitPaths r rest cache1
        (result :: outs, cache2)
      | (none, cache1) => checkCodes transport api testVersion omitPaths r rest cache1
    else
      checkCodes transport api testVersion omitPaths r rest cache

/-- The loop of `basics` over one API's readable endpoints, threading
the shared cache. -/
def checkResources (transport : Transport) (api : ApiInstance) (testVersion : String)
    (omitPaths : List String) : List Resource → Cache → List Outcome × Cache
  | [], cache => ([], cache)
  | r :: rest, cache =>
    let (outs1, cache1) := checkCodes transport api testVersion omitPaths r r.responses cache
    let (outs2, cache2) := checkResources transport api testVersion omitPaths rest cache1
    (outs1 ++ outs2, cache2)

/-- The two fixed bootstrap probes of one API instance: the namespace
path must list the API's name and the API path must list the version
under test. -/
def bootstrapChecks (transport : Transport) (testVersion : String)
    (api : ApiInstance) : List Outcome :=
  [check_base_path transport api.base_url "/x-nmos" (api.name ++ "/"),
   check_base_path transport api.base_url ("/x-nmos/" ++ api.name) (testVersion ++ "/")]

/-- Embeds `basics()`: for each API instance in order, its two bootstrap checks
followed by its per-endpoint checks, with the subresource cache
threaded across the whole run. -/
def basics (transport : Transport) (testVersion : String) (omitPaths : List String) :
    List ApiInstance → Cache → List Outcome
  | [], _ => []
  | api :: rest, cache =>
    let (outs, cache1) := checkResources transport api testVersion omitPaths api.resources cache
    bootstrapChecks transport testVersion api ++ outs
      ++ basics transport testVersion omitPaths rest cache1

/-- The per-endpoint checks of a run alone, in API-instance order,
threading the cache. -/
def endpointChecks (transport : Transport) (testVersion : String) (omitPaths : List String) :
    List ApiInstance → Cache → List Outcome
  | [], _ => []
  | api :: rest, cache =>
    let (outs, cache1) := checkResources transport api testVersion omitPaths api.resources cache
    outs ++ endpointChecks transport testVersion omitPaths rest cache1

/-- The outcome order §4.1 of the spec states for a run: the bootstrap
checks of every API instance first (in API-instance order), followed by
the per-endpoint checks.  Written from the spec's words, to be compared
with `basics`, which embeds the source. -/
def basicsSpecOrdered (transport : Transport) (testVersion : String)
    (omitPaths : List String) (apis : List ApiInstance) (cache : Cache) : List Outcome :=
  (apis.map (bootstrapChecks transport testVersion)).flatten
    ++ endpointChecks transport testVersion omitPaths apis cache

/-- Every cache entry holds a non-empty identifier list. -/
def cacheEntriesNonEmpty (cache : Cache) : Bool :=
  cache.all (fun pr => !pr.2.isEmpty)

/-! Helper lemmas about the cache operations. -/

theorem lookupEnt_append_of_some (cache l : Cache) (q : String) (v : List Json)
    (h : lookupEnt cache q = some v) : lookupEnt (cache ++ l) q = some v := by
  induction cache with
  | nil => simp [lookupEnt] at h
  | cons kv rest ih =>
    obtain ⟨k, v0⟩ := kv
    simp only [List.cons_append, lookupEnt] at h ⊢
    cases hk : (k == q) with
    | true => simpa [hk] using h
    | false =>
      rw [hk] at h
      simp only [hk, if_neg Bool.false_ne_true]
      exact ih h

theorem lookupEnt_append_self_of_none (cache : Cache) (p : String) (s : List Json)
    (h : lookupEnt cache p = none) : lookupEnt (cache ++ [(p, s)]) p = some s := by
  induction cache with
  | nil => simp [lookupEnt]
  | cons kv rest ih =>
    obtain ⟨k, v0⟩ := kv
    simp only [lookupEnt] at h
    cases hk : (k == p) with
    | true => simp [hk] at h
    | false =>
      rw [hk] at h
      simp only [List.cons_append, lookupEnt, hk, if_neg Bool.false_ne_true]
      exact ih h

theorem lookupEnt_updateAppend_self (cache : Cache) (p : String) (s v : List Json)
    (h : lookupEnt cache p = some v) :
    lookupEnt (updateAppend cache p s) p = some (v ++ s) := by
  induction cache with
  | nil => simp [lookupEnt] at h
  | cons kv rest ih =>
    obtain ⟨k, v0⟩ := kv
    simp only [lookupEnt] at h
    cases hk : (k == p) with
    | true =>
      rw [hk] at h
      simp only [if_pos rfl] at h
      cases h
      simp [updateAppend, lookupEnt, hk]
    | false =>
      rw [hk] at h
      simp only [if_neg Bool.false_ne_true] at h
      simp only [updateAppend, lookupEnt, hk, if_neg Bool.false_ne_true]
      exact ih h

theorem lookupEnt_updateAppend_ne (cache : Cache) (p q : String) (s : List Json)
    (h : (q == p) = false) :
    lookupEnt (updateAppend cache p s) q = lookupEnt cache q := by
  induction cache with
  | nil => simp [updateAppend, lookupEnt]
  | cons kv rest ih =>
    obtain ⟨k, v0⟩ := kv
    cases hk : (k == p) with
    | true =>
      have hkq : (k == q) = false := by
        have h1 : k = p := by simpa using hk
        have h2 : ¬ q = p := by simpa using h
        subst h1
        simp only [beq_eq_false_iff_ne]
        exact fun hc => h2 hc.symm
      simp [updateAppend, lookupEnt, hk, hkq]
    | false =>
      simp only [updateAppend, lookupEnt, hk, if_neg Bool.false_ne_true]
      cases hkq : (k == q) with
      | true => simp [hkq]
      | false => simpa [hkq] using ih

theorem mem_updateAppend (cache : Cache) (p : String) (s : List Json)
    (pr : String × List Json) (hpr : pr ∈ updateAppend cache p s) :
    pr ∈ cache ∨ ∃ k v, (k, v) ∈ cache ∧ pr = (k, v ++ s) := by
  revert hpr
  induction cache with
  | nil =>
    intro hpr
    simp [updateAppend] at hpr
  | cons kv rest ih =>
    obtain ⟨k, v0⟩ := kv
    intro hpr
    cases hk : (k == p) with
    | true =>
      rw [updateAppend, hk] at hpr
      simp only [if_true, List.mem_cons] at hpr
      rcases hpr with hpr | hpr
      · exact Or.inr ⟨k, v0, List.mem_cons_self _ _, hpr⟩
      · exact Or.inl (List.mem_cons_of_mem _ hpr)
    | false =>
      rw [updateAppend, hk] at hpr
      simp only [Bool.false_eq_true, if_false, List.mem_cons] at hpr
      rcases hpr with hpr | hpr
      · exact Or.inl (hpr ▸ List.mem_cons_self _ _)
      · rcases ih hpr with h1 | ⟨k1, v1, hmem, heq⟩
        · exact Or.inl (List.mem_cons_of_mem _ h1)
        · exact Or.inr ⟨k1, v1, List.mem_cons_of_mem _ hmem, heq⟩

theorem updateAppend_nonEmpty (cache : Cache) (p : String) (s : List Json)
    (h : cacheEntriesNonEmpty cache = true) :
    cacheEntriesNonEmpty (updateAppend cache p s) = true := by
  simp only [cacheEntriesNonEmpty, List.all_eq_true] at h ⊢
  intro pr hpr
  rcases mem_updateAppend cache p s pr hpr with hm | ⟨k, v, hmem, heq⟩
  · exact h pr hm
  · subst heq
    have h1 := h (k, v) hmem
    cases v with
    | nil => simp at h1
    | cons a as => simp

theorem save_subresources_nonEmpty (cache : Cache) (p : String) (b : Option Json)
    (h : cacheEntriesNonEmpty cache = true) :
    cacheEntriesNonEmpty (save_subresources cache p b) = true := by
  show cacheEntriesNonEmpty
    (if 0 < (subresourcesOf b).length then
      match lookupEnt cache p with
      | none => cache ++ [(p, subresourcesOf b)]
      | some _ => updateAppend cache p (subresourcesOf b)
    else cache) = true
  by_cases hlen : 0 < (subresourcesOf b).length
  · rw [if_pos hlen]
    cases hl : lookupEnt cache p with
    | none =>
      simp only [cacheEntriesNonEmpty, List.all_append, Bool.and_eq_true]
      refine ⟨h, ?_⟩
      cases hs : subresourcesOf b with
      | nil => rw [hs] at hlen; simp at hlen
      | cons a as => simp [List.all]
    | some v => exact updateAppend_nonEmpty cache p (subresourcesOf b) h
  · rw [if_neg hlen]
    exact h

theorem lookupEnt_save_self_of_some (cache : Cache) (p : String) (b : Option Json)
    (v : List Json) (h : lookupEnt cache p = some v) :
    lookupEnt (save_subresources cache p b) p = some (v ++ subresourcesOf b) := by
  show lookupEnt
    (if 0 < (subresourcesOf b).length then
      match lookupEnt cache p with
      | none => cache ++ [(p, subresourcesOf b)]
      | some _ => updateAppend cache p (subresourcesOf b)
    else cache) p = some (v ++ subresourcesOf b)
  by_cases hlen : 0 < (subresourcesOf b).length
  · rw [if_pos hlen, h]
    exact lookupEnt_updateAppend_self cache p (subresourcesOf b) v h
  · rw [if_neg hlen, h]
    have hnil : subresourcesOf b = [] := by
      cases hs : subresourcesOf b with
      | nil => rfl
      | cons a as => rw [hs] at hlen; simp at hlen
    rw [hnil]
    simp

theorem lookupEnt_save_self_of_none (cache : Cache) (p : String) (b : Option Json)
    (h : lookupEnt cache p = none) (hne : subresourcesOf b ≠ []) :
    lookupEnt (save_subresources cache p b) p = some (subresourcesOf b) := by
  have hlen : 0 < (subresourcesOf b).length := List.length_pos.mpr hne
  show lookupEnt
    (if 0 < (subresourcesOf b).length then
      match lookupEnt cache p with
      | none => cache ++ [(p, subresourcesOf b)]
      | some _ => updateAppend cache p (subresourcesOf b)
    else cache) p = some (subresourcesOf b)
  rw [if_pos hlen, h]
  exact lookupEnt_append_self_of_none cache p (subresourcesOf b) h

theorem lookupEnt_save_other (cache : Cache) (p q : String) (b : Option Json)
    (v : List Json) (hq : lookupEnt cache q = some v) (hqp : q ≠ p) :
    lookupEnt (save_subresources cache p b) q = some v := by
  show lookupEnt
    (if 0 < (subresourcesOf b).length then
      match lookupEnt cache p with
      | none => cache ++ [(p, subresourcesOf b)]
      | some _ => updateAppend cache p (subresourcesOf b)
    else cache) q = some v
  by_cases hlen : 0 < (subresourcesOf b).length
  · rw [if_pos hlen]
    cases hl : lookupEnt cache p with
    | none => exact lookupEnt_append_of_some cache _ q v hq
    | some w =>
      rw [lookupEnt_updateAppend_ne cache p q (subresourcesOf b) (by simpa using hqp)]
      exact hq
  · rw [if_neg hlen]
    exact hq

/-- C5: harvesting is append-only, order-preserving and performs no
deduplication: on a fresh parent path, harvesting a body yielding
identifiers `l1` and then a body yielding `l2` leaves the cache entry
equal to `l1 ++ l2` (so `[a,b]` then `[c]` gives `[a,b,c]`, and a
repeated identifier appears twice); and no harvest ever removes or
shortens an existing entry — every present entry is only ever extended
by a (possibly empty) suffix. -/
theorem save_subresources_append_only (cache : Cache) (p : String) (b b' : Option Json) :
    (lookupEnt cache p = none → subresourcesOf b ≠ [] →
      lookupEnt (save_subresources (save_subresources cache p b) p b') p
        = some (subresourcesOf b ++ subresourcesOf b'))
    ∧ (∀ q v, lookupEnt cache q = some v →
        ∃ w, lookupEnt (save_subresources cache p b) q = some (v ++ w)) := by
  constructor
  · intro hnone hne
    have h1 : lookupEnt (save_subresources cache p b) p = some (subresourcesOf b) :=
      lookupEnt_save_self_of_none cache p b hnone hne
    exact lookupEnt_save_self_of_some (save_subresources cache p b) p b' (subresourcesOf b) h1
  · intro q v hq
    by_cases hqp : q = p
    · subst hqp
      exact ⟨subresourcesOf b, lookupEnt_save_self_of_some cache q b v hq⟩
    · exact ⟨[], by rw [List.append_nil]; exact lookupEnt_save_other cache p q b v hq hqp⟩

/-- The response bodies of the C5 witness: a list contributing
identifiers `a`, `b` and then a list contributing `a` again. -/
def bodyAB : Option Json :=
  some (Json.arr [Json.obj [("id", Json.str "a")], Json.obj [("id", Json.str "b")]])

/-- Second harvested body of the C5 witness. -/
def bodyA : Option Json := some (Json.arr [Json.obj [("id", Json.str "a")]])

/-- C5 witness: harvesting `[a,b]` then `[a]` on the fresh path `/r`
leaves the entry `[a,b,a]` — appended in order, the duplicate kept. -/
theorem save_subresources_append_only_witness :
    lookupEnt (save_subresources (save_subresources [] "/r" bodyAB) "/r" bodyA) "/r"
      = some [Json.str "a", Json.str "b", Json.str "a"] :=
  (save_subresources_append_only [] "/r" bodyAB bodyA).1 rfl (List.cons_ne_nil _ _)

/-- C9: every entry of the subresource cache is a non-empty identifier
list: starting from the empty cache of a fresh run, any sequence of
harvests leaves only non-empty entries, because an entry is created
only when at least one identifier was extracted and is afterwards only
appended to. -/
theorem cache_entries_never_empty (steps : List (String × Option Json)) :
    cacheEntriesNonEmpty
      (steps.foldl (fun cache st => save_subresources cache st.1 st.2) []) = true := by
  have key : ∀ (l : List (String × Option Json)) (cache : Cache),
      cacheEntriesNonEmpty cache = true →
      cacheEntriesNonEmpty
        (l.foldl (fun cache st => save_subresources cache st.1 st.2) cache) = true := by
    intro l
    induction l with
    | nil => exact fun cache h => h
    | cons st rest ih =>
      intro cache h
      exact ih _ (save_subresources_nonEmpty cache st.1 st.2 h)
  exact key steps [] rfl

theorem head_dropWhile_slash (l : List Char) :
    (match (l.dropWhile (fun c => c == '/')).head? with
     | some c => c == '/'
     | none => false) = false := by
  induction l with
  | nil => rfl
  | cons c rest ih =>
    rw [List.dropWhile_cons]
    cases hc : (c == '/') with
    | true => simpa [hc] using ih
    | false => simp [hc]

/-- C10: a string element of a harvested list body contributes an
identifier exactly when it ends in the path separator, and the
identifier is the element with all trailing separators removed; a
string not ending in a separator contributes nothing.  Concretely,
`"abc//"` harvests as `"abc"`, and a stripped identifier never retains
a trailing separator. -/
theorem harvest_string_entry (s : String) (rest : List Json) :
    harvestList (Json.str s :: rest)
        = (if endsWithSlash s then [Json.str (rstripSlash s)] else []) ++ harvestList rest
    ∧ harvestList [Json.str "abc//"] = [Json.str "abc"]
    ∧ endsWithSlash (rstripSlash s) = false := by
  refine ⟨rfl, rfl, ?_⟩
  show (match ((s.data.reverse.dropWhile (fun c => c == '/')).reverse).getLast? with
        | some c => c == '/'
        | none => false) = false
  rw [List.getLast?_reverse]
  exact head_dropWhile_slash s.data.reverse

/-- C2: for an endpoint descriptor with zero path parameters, the
resolved request URL is the API instance's (slash-normalised) base URL
with the literal path template appended, and the resolution does not
depend on the subresource cache at all.  The third conjunct observes
the URL actually handed to the transport: under a transport that
reports the URL it was asked for, the check's failure message is
exactly that concatenation. -/
theorem zero_param_url_literal (api : ApiInstance) (testVersion : String)
    (cache cache' : Cache) (r : Resource) (code : Nat)
    (hp : r.params = []) (hb : rstripSlash api.url = api.url) :
    resolveResource api.name api.url testVersion cache r
        = Resolution.request (testNameFor r.method api.name testVersion (rstripSlash r.path))
            (api.url ++ r.path)
    ∧ resolveResource api.name api.url testVersion cache r
        = resolveResource api.name api.url testVersion cache' r
    ∧ check_api_resource (fun _ url => Except.error url) api testVersion cache r code
        = (some (failResult (testNameFor r.method api.name testVersion (rstripSlash r.path))
            (api.url ++ r.path)), cache) := by
  have h1 : resolveResource api.name api.url testVersion cache r
      = Resolution.request (testNameFor r.method api.name testVersion (rstripSlash r.path))
          (api.url ++ r.path) := by
    rw [resolveResource, hp, hb]
  refine ⟨h1, ?_, ?_⟩
  · rw [h1, resolveResource, hp, hb]
  · rw [check_api_resource, h1]

/-- A transport on which every request fails with a connection error
(the engine under test never needs a live network). -/
def noTransport : Transport := fun _ _ => Except.error "Connection refused"

/-- A catalog with no schemas. -/
def noSchemas : String → String → Nat → Option (Json → Bool) := fun _ _ _ => none

/-- A parameterless readable endpoint. -/
def selfResource : Resource := ⟨"/self", "get", [], [200]⟩

/-- A readable endpoint with one path parameter. -/
def nodeResource : Resource := ⟨"/resource/{resourceId}", "get", ["resourceId"], [200]⟩

/-- A readable endpoint with two path parameters. -/
def twoParamResource : Resource := ⟨"/a/{x}/{y}", "get", ["x", "y"], [200]⟩

/-- A query API instance with one parameterless endpoint. -/
def queryApi : ApiInstance :=
  ⟨"query", "http://q", "http://q/x-nmos/query/v1.0", [selfResource], noSchemas⟩

/-- A registration API instance with no readable endpoints. -/
def regApi : ApiInstance :=
  ⟨"registration", "http://r", "http://r/x-nmos/registration/v1.0", [], noSchemas⟩

/-- C2 witness: the parameterless `/self` endpoint resolves to the base
URL plus the literal template, on a non-empty cache. -/
theorem zero_param_url_literal_witness :
    resolveResource "query" "http://q/x-nmos/query/v1.0" "v1.0"
        [("/x", [Json.str "z"])] selfResource
      = Resolution.request "GET /x-nmos/query/v1.0/self" "http://q/x-nmos/query/v1.0/self" :=
  (zero_param_url_literal queryApi "v1.0"
    [("/x", [Json.str "z"])] [] selfResource 200 rfl rfl).1

/-- C3: for an endpoint with exactly one path parameter whose parent
path has no cache entry, the check resolves to the no-entities case and
— for every transport, i.e. without issuing any request — returns the
NA outcome with message "No resources found to perform this test",
leaving the cache unchanged. -/
theorem one_param_empty_cache_na (transport : Transport) (api : ApiInstance)
    (testVersion : String) (cache : Cache) (r : Resource) (param : String) (code : Nat)
    (hp : r.params = [param])
    (hc : lookupEnt cache (rstripSlash (beforeBrace r.path)) = none) :
    resolveResource api.name api.url testVersion cache r
        = Resolution.noEntities (testNameFor r.method api.name testVersion (rstripSlash r.path))
    ∧ check_api_resource transport api testVersion cache r code
        = (some (naResult (testNameFor r.method api.name testVersion (rstripSlash r.path))
            "No resources found to perform this test"), cache) := by
  have h1 : resolveResource api.name api.url testVersion cache r
      = Resolution.noEntities (testNameFor r.method api.name testVersion (rstripSlash r.path)) := by
    simp only [resolveResource, hp, hc]
  refine ⟨h1, ?_⟩
  rw [check_api_resource, h1]

/-- C3 witness: the parameterised `/resource/\x7bresourceId\x7d` endpoint on
an empty cache yields the NA outcome under the failing transport (which
is never invoked). -/
theorem one_param_empty_cache_na_witness :
    check_api_resource noTransport queryApi "v1.0" [] nodeResource 200
      = (some (naResult "GET /x-nmos/query/v1.0/resource/\x7bresourceId\x7d"
          "No resources found to perform this test"), []) :=
  (one_param_empty_cache_na noTransport queryApi "v1.0" [] nodeResource "resourceId" 200
    rfl rfl).2

/-- C4: for an endpoint with exactly one path parameter whose parent
path holds at least one cached identifier, the resolved URL substitutes
the first cached identifier (the head of the first-seen-order entry
list) into the template. -/
theorem one_param_uses_first_cached_id (apiName apiUrl testVersion : String)
    (cache : Cache) (r : Resource) (param e : String) (rest : List Json)
    (hp : r.params = [param])
    (hc : lookupEnt cache (rstripSlash (beforeBrace r.path)) = some (Json.str e :: rest)) :
    resolveResource apiName apiUrl testVersion cache r
      = Resolution.request
          (testNameFor r.method apiName testVersion (formatTemplate r.path param e))
          (rstripSlash apiUrl ++ formatTemplate r.path param e) := by
  simp only [resolveResource, hp, hc, List.headD, pyStr]

/-- C4 witness: with `["abc", "def"]` cached for `/resource`, the
template resolves against `abc`, the first identifier, not `def`. -/
theorem one_param_uses_first_cached_id_witness :
    resolveResource "query" "http://q/x-nmos/query/v1.0" "v1.0"
        [("/resource", [Json.str "abc", Json.str "def"])] nodeResource
      = Resolution.request "GET /x-nmos/query/v1.0/resource/abc"
          "http://q/x-nmos/query/v1.0/resource/abc" :=
  one_param_uses_first_cached_id "query" "http://q/x-nmos/query/v1.0" "v1.0"
    [("/resource", [Json.str "abc", Json.str "def"])] nodeResource
    "resourceId" "abc" [Json.str "def"] rfl rfl

/-- C6: `check_response` applies its contracts in fixed precedence.
Whatever the schema is: a CORS violation is reported (with the CORS
message) before any body inspection; with CORS intact, a body that does
not parse as JSON is reported as invalid JSON independent of the
schema; and only then is a parsed body judged against the schema. -/
theorem check_response_precedence (schema : Json → Bool) (method : String)
    (response : Response) :
    (validate_CORS method response = false →
      check_response schema method response
        = (false, "Incorrect CORS headers: " ++ headersRepr response.headers))
    ∧ (validate_CORS method response = true → response.body = none →
      check_response schema method response = (false, "Invalid JSON received"))
    ∧ (∀ j, validate_CORS method response = true → response.body = some j →
        schema j = false →
      check_response schema method response = (false, "Response schema validation error")) := by
  refine ⟨fun h => ?_, fun h hb => ?_, fun j h hb hs => ?_⟩
  · simp only [check_response, h, Bool.not_false, if_true]
  · simp only [check_response, h, Bool.not_true, Bool.false_eq_true, if_false, hb]
  · simp only [check_response, h, Bool.not_true, Bool.false_eq_true, if_false, hb, hs]

/-- Headers carrying only the allow-origin CORS header. -/
def corsHeaders : List (String × String) := [("Access-Control-Allow-Origin", "*")]

/-- A 200 response with valid basic CORS headers and a non-JSON body. -/
def badJsonResponse : Response := ⟨200, corsHeaders, none⟩

/-- C6 witness: with CORS headers intact and a malformed body, the
reported message is the invalid-JSON one, for a schema that rejects
everything — the schema is never consulted. -/
theorem check_response_precedence_witness :
    check_response (fun _ => false) "GET" badJsonResponse
      = (false, "Invalid JSON received") :=
  (check_response_precedence (fun _ => false) "GET" badJsonResponse).2.1 rfl rfl

/-- C7: `validate_CORS` rejects every response lacking the allow-origin
header, whatever the method (and hence whatever the status code or body
is, neither of which it reads); and for the preflight method `OPTIONS`
it additionally rejects when the allow-headers header is absent, when
the allow-methods header is absent, or when the allow-methods value
does not contain the method name. -/
theorem validate_CORS_header_requirements (method : String) (r : Response) :
    (hasHeader r "Access-Control-Allow-Origin" = false → validate_CORS method r = false)
    ∧ (hasHeader r "Access-Control-Allow-Headers" = false →
        validate_CORS "OPTIONS" r = false)
    ∧ (hasHeader r "Access-Control-Allow-Methods" = false →
        validate_CORS "OPTIONS" r = false)
    ∧ (substrIn "OPTIONS" (getHeader r "Access-Control-Allow-Methods") = false →
        validate_CORS "OPTIONS" r = false)
    ∧ (hasHeader r "Access-Control-Allow-Origin" = true →
        hasHeader r "Access-Control-Allow-Headers" = true →
        hasHeader r "Access-Control-Allow-Methods" = true →
        substrIn "OPTIONS" (getHeader r "Access-Control-Allow-Methods") = true →
        validate_CORS "OPTIONS" r = true) := by
  refine ⟨fun h => ?_, fun h => ?_, fun h => ?_, fun h => ?_, fun h1 h2 h3 h4 => ?_⟩
  · simp [validate_CORS, h]
  · simp [validate_CORS, h]
  · simp [validate_CORS, h]
  · simp [validate_CORS, h]
  · simp [validate_CORS, h1, h2, h3, h4]

/-- A response with no headers at all. -/
def bareResponse : Response := ⟨200, [], some (Json.arr [])⟩

/-- C7 witness: a response without an allow-origin header fails CORS
validation for a plain GET. -/
theorem validate_CORS_header_requirements_witness :
    validate_CORS "GET" bareResponse = false :=
  (validate_CORS_header_requirements "GET" bareResponse).1 rfl

theorem checkCodes_multi_param (transport : Transport) (api : ApiInstance)
    (testVersion : String) (omitPaths : List String) (r : Resource)
    (p1 p2 : String) (ps : List String) (hp : r.params = p1 :: p2 :: ps) :
    ∀ (codes : List Nat) (cache : Cache),
      checkCodes transport api testVersion omitPaths r codes cache = ([], cache) := by
  have hskip : ∀ cache code,
      check_api_resource transport api testVersion cache r code = (none, cache) := by
    intro cache code
    have hres : resolveResource api.name api.url testVersion cache r = Resolution.skip := by
      simp only [resolveResource, hp]
    rw [check_api_resource, hres]
  intro codes
  induction codes with
  | nil => intro cache; rfl
  | cons code rest ih =>
    intro cache
    rw [checkCodes]
    by_cases hcond : (code == 200 && !(omitPaths.contains r.path)) = true
    · rw [if_pos hcond, hskip cache code]
      exact ih cache
    · rw [if_neg hcond]
      exact ih cache

/-- C8: an endpoint descriptor with more than one path parameter is
silently skipped: for every transport (so no request is issued) the
check returns no outcome and leaves the cache untouched, and the run
over the remaining endpoints proceeds exactly as if the endpoint were
absent. -/
theorem multi_param_resource_skipped (transport : Transport) (api : ApiInstance)
    (testVersion : String) (omitPaths : List String) (cache : Cache)
    (r : Resource) (rest : List Resource) (code : Nat)
    (p1 p2 : String) (ps : List String) (hp : r.params = p1 :: p2 :: ps) :
    check_api_resource transport api testVersion cache r code = (none, cache)
    ∧ checkResources transport api testVersion omitPaths (r :: rest) cache
        = checkResources transport api testVersion omitPaths rest cache := by
  constructor
  · have hres : resolveResource api.name api.url testVersion cache r = Resolution.skip := by
      simp only [resolveResource, hp]
    rw [check_api_resource, hres]
  · rw [checkResources,
      checkCodes_multi_param transport api testVersion omitPaths r p1 p2 ps hp r.responses cache]
    simp

/-- C8 witness: the two-parameter endpoint produces no outcome, keeps
the cache empty, and checking it before the `/self` endpoint gives the
same outcome list as not checking it at all. -/
theorem multi_param_resource_skipped_witness :
    check_api_resource noTransport queryApi "v1.0" [] twoParamResource 200 = (none, [])
    ∧ checkResources noTransport queryApi "v1.0" [] [twoParamResource, selfResource] []
        = checkResources noTransport queryApi "v1.0" [] [selfResource] [] :=
  multi_param_resource_skipped noTransport queryApi "v1.0" [] [] twoParamResource
    [selfResource] 200 "x" "y" [] rfl

/-- C1 counterexample: with two API instances of which the first has a
readable endpoint, `basics` emits that endpoint's outcome (position 2,
named with the versioned endpoint path) before the second instance's
bootstrap outcomes (positions 3 and 4), so the run does not place all
bootstrap checks first and differs from the spec-ordered sequence. -/
theorem basics_not_bootstrap_first :
    (basics noTransport "v1.0" [] [queryApi, regApi] []).map Outcome.name
        = ["GET /x-nmos", "GET /x-nmos/query", "GET /x-nmos/query/v1.0/self",
           "GET /x-nmos", "GET /x-nmos/registration"]
    ∧ basics noTransport "v1.0" [] [queryApi, regApi] []
        ≠ basicsSpecOrdered noTransport "v1.0" [] [queryApi, regApi] [] :=
  ⟨rfl, by decide⟩

/-- C1 amended: outcomes are grouped per API instance — each instance's
two bootstrap outcomes are followed immediately by that instance's
per-endpoint outcomes, and only then does the next instance begin; in
particular for a run over a single API instance the emitted sequence
does coincide with the spec's bootstrap-first order. -/
theorem basics_groups_outcomes_per_api (transport : Transport) (testVersion : String)
    (omitPaths : List String) (api : ApiInstance) (rest : List ApiInstance)
    (cache : Cache) :
    basics transport testVersion omitPaths (api :: rest) cache
      = bootstrapChecks transport testVersion api
        ++ (checkResources transport api testVersion omitPaths api.resources cache).1
        ++ basics transport testVersion omitPaths rest
            (checkResources transport api testVersion omitPaths api.resources cache).2
    ∧ basics transport testVersion omitPaths [api] cache
        = basicsSpecOrdered transport testVersion omitPaths [api] cache := by
  constructor
  · rcases hcr : checkResources transport api testVersion omitPaths api.resources cache
      with ⟨outs, cache1⟩
    simp [basics, hcr]
  · rcases hcr : checkResources transport api testVersion omitPaths api.resources cache
      with ⟨outs, cache1⟩
    simp [basics, basicsSpecOrdered, endpointChecks, bootstrapChecks, hcr]
